import Mathlib

/-!
Shallow embedding of the react-crud repository's CRUD layer.

The reviewable logic lives in `crud_actions.ts` (the generic handler
factories `createFetchHandler`, `createCreateHandler`, `createUpdateHandler`,
`createDeleteHandler`) and in the per-page `handleSubmit` functions of
`users.tsx` and the posts page. Entities are TypeScript records with an
optional numeric `id`; we model JS numbers used as identifiers by `Int`
(they are integers throughout the repo) and a missing `id` field by `none`.

Each handler is an async function closing over the page state
(items, loading, error, formData) and the state setters. We model one run
of a handler as a pure function from the pre-state, the handler's argument
and the network outcome to the requests it issued plus the post-state.
The network outcome is `Except String (HttpResponse β)`: `.error msg`
models a rejected fetch / JSON parse failure whose `Error` carries `msg`,
and `.ok r` a settled response with status, `ok` flag and parsed body.
-/

/-- A settled HTTP response as the handlers observe it: the `ok` flag and
`status` of the fetch Response, and the already-parsed JSON body. -/
structure HttpResponse (β : Type) where
  ok : Bool
  status : Nat
  body : β
deriving Repr, DecidableEq

/-- The HTTP methods used by the four handlers. -/
inductive HttpMethod
  | get
  | post
  | put
  | delete
deriving Repr, DecidableEq

/-- A network request issued by a handler (method and URL; the JSON body
sent along is irrelevant to the properties below). -/
structure Request where
  method : HttpMethod
  url : String
deriving Repr, DecidableEq

/-- The `Entity` interface of crud_actions.ts: a record with an optional
numeric `id`. `withId` is the object spread `{ ...x, id := n }` used by the
create handler; the field `id_withId` records that the spread sets the id. -/
class Entity (T : Type) where
  id : T → Option Int
  withId : T → Int → T
  id_withId : ∀ x n, id (withId x n) = some n

/-- The page state a handler closes over: the item list, the loading flag,
the error message and the form draft. -/
structure CrudState (T : Type) where
  items : List T
  loading : Bool
  error : Option String
  formData : T
deriving Repr, DecidableEq

/-- The shared try-block prefix of every handler: a rejected fetch gives the
rejection's message, a settled response with `!response.ok` throws
`HTTP error! status: ${status}`, and otherwise the parsed body is used. -/
def httpResult {β : Type} (resp : Except String (HttpResponse β)) : Except String β :=
  match resp with
  | .error msg => .error msg
  | .ok r =>
    if r.ok then .ok r.body
    else .error ("HTTP error! status: " ++ toString r.status)

/-- `Math.max(...l)` for the nonempty lists it is applied to (the empty case
is unreachable because the caller guards on `items.length > 0`). -/
def mathMax : List Int → Int
  | [] => 0
  | [x] => x
  | x :: y :: rest => max x (mathMax (y :: rest))

/-- The id synthesis of the create handler:
`items.length > 0 ? Math.max(...items.map(item => item.id || 0)) : 0`.
A missing id contributes `0` (`item.id || 0`); a present id `n` contributes
`n` itself (for `n = 0`, `0 || 0` is again `0`). -/
def jsMaxId {T : Type} [Entity T] (items : List T) : Int :=
  if items.length > 0 then
    mathMax (items.map fun item => (Entity.id item).getD 0)
  else 0

/-- JS truthiness of an optional numeric id: `undefined` and `0` are falsy,
every other number is truthy. -/
def jsTruthy : Option Int → Bool
  | none => false
  | some n => n != 0

/-- `createFetchHandler` of crud_actions.ts. It sets the loading flag and
clears the error, issues `GET baseUrl`, on success replaces the item list
with the parsed body, on any failure records the error message, and finally
clears the loading flag. Returns the issued requests, the state right after
`setLoading(true); setError(null)` (while the request is in flight), and the
final state. -/
def createFetchHandler {T : Type} (baseUrl : String) (s : CrudState T)
    (resp : Except String (HttpResponse (List T))) :
    List Request × CrudState T × CrudState T :=
  let mid := { s with loading := true, error := none }
  let afterTry :=
    match httpResult resp with
    | .ok data => { mid with items := data }
    | .error msg => { mid with error := some msg }
  ([⟨HttpMethod.get, baseUrl⟩], mid, { afterTry with loading := false })

/-- `createCreateHandler` of crud_actions.ts. It clears the error, issues
`POST baseUrl` with the item body, and on success synthesizes
`maxId + 1`, merges it into the server's returned representation
(`{ ...newItem, id: maxId + 1 }`), appends the result to the list and resets
the form to `clearFormData`; on failure it records the error message. -/
def createCreateHandler {T : Type} [Entity T] (baseUrl : String)
    (clearFormData : T) (s : CrudState T) (itemData : T)
    (resp : Except String (HttpResponse T)) :
    List Request × CrudState T :=
  let s0 := { s with error := none }
  let reqs := [⟨HttpMethod.post, baseUrl⟩]
  match httpResult resp with
  | .error msg => (reqs, { s0 with error := some msg })
  | .ok newItem =>
    let maxId := jsMaxId s0.items
    let savedItem := Entity.withId newItem (maxId + 1)
    (reqs, { s0 with items := s0.items ++ [savedItem], formData := clearFormData })

/-- `createUpdateHandler` of crud_actions.ts. It clears the error; if
`!itemData.id` (id missing or `0`) it throws
`Cannot update ${entityName} without an ID` before any network call;
otherwise it issues `PUT baseUrl/id`, and on success replaces every list
element whose id strictly equals `itemData.id` by the server's returned
representation and resets the form; on failure it records the error. -/
def createUpdateHandler {T : Type} [Entity T] (baseUrl : String)
    (entityName : String) (clearFormData : T) (s : CrudState T) (itemData : T)
    (resp : Except String (HttpResponse T)) :
    List Request × CrudState T :=
  let s0 := { s with error := none }
  if jsTruthy (Entity.id itemData) then
    let reqs := [⟨HttpMethod.put, baseUrl ++ "/" ++ toString ((Entity.id itemData).getD 0)⟩]
    match httpResult resp with
    | .error msg => (reqs, { s0 with error := some msg })
    | .ok savedItem =>
      let updatedItems := s0.items.map fun item =>
        if Entity.id item = Entity.id itemData then savedItem else item
      (reqs, { s0 with items := updatedItems, formData := clearFormData })
  else
    ([], { s0 with error := some ("Cannot update " ++ entityName ++ " without an ID") })

/-- `createDeleteHandler` of crud_actions.ts. It clears the error, issues
`DELETE baseUrl/id`, and on success removes from the list every element
whose id strictly equals the given id (`items.filter(item => item.id !== id)`);
on failure it records the error message. -/
def createDeleteHandler {T : Type} [Entity T] (baseUrl : String)
    (s : CrudState T) (id : Int) (resp : Except String (HttpResponse Unit)) :
    List Request × CrudState T :=
  let s0 := { s with error := none }
  let reqs := [⟨HttpMethod.delete, baseUrl ++ "/" ++ toString id⟩]
  match httpResult resp with
  | .error msg => (reqs, { s0 with error := some msg })
  | .ok _ =>
    (reqs, { s0 with items := s0.items.filter fun item => Entity.id item ≠ some id })

/-- The User entity of users.tsx: optional id plus `name` and `email`. -/
structure User where
  id : Option Int := none
  name : String
  email : String
deriving Repr, DecidableEq

instance : Entity User where
  id u := u.id
  withId u n := { u with id := some n }
  id_withId := fun _ _ => rfl

/-- The Post entity of the posts page: optional id plus `postId`, `title`
and `body`. -/
structure Post where
  id : Option Int := none
  postId : Int
  title : String
  body : String
deriving Repr, DecidableEq

instance : Entity Post where
  id p := p.id
  withId p n := { p with id := some n }
  id_withId := fun _ _ => rfl

/-- Base URL of the users page. -/
def usersBaseUrl : String := "https://jsonplaceholder.typicode.com/users"

/-- The empty form template of the users page, `{ name: "", email: "" }`. -/
def usersEmptyForm : User := { name := "", email := "" }

/-- Base URL of the posts page. -/
def postsBaseUrl : String := "https://jsonplaceholder.typicode.com/posts"

/-- The empty form template of the posts page,
`{ postId: 0, title: "", body: "" }`. -/
def postsEmptyForm : Post := { postId := 0, title := "", body := "" }

/-- JS `String.prototype.trim`: the string with whitespace removed from
both ends, written over the character list so that it is executable. -/
def jsTrim (s : String) : String :=
  ⟨((s.data.dropWhile Char.isWhitespace).reverse.dropWhile
      Char.isWhitespace).reverse⟩

/-- `handleSubmit` of users.tsx: reject when `name` or `email` trims to the
empty string, otherwise dispatch on the truthiness of `formData.id` to the
update or the create operation.
Modelled from the spec: `useCrudState` (referenced by users.tsx but absent
from the sources) wires the page state to the generic handler factories of
crud_actions.ts with entity name `user`, the users base URL and the empty
template `{ name: "", email: "" }`, so the dispatched operations are the
generic create/update handlers instantiated with those arguments. -/
def usersHandleSubmit (s : CrudState User)
    (resp : Except String (HttpResponse User)) :
    List Request × CrudState User :=
  if jsTrim s.formData.name = "" ∨ jsTrim s.formData.email = "" then
    ([], { s with error := some "Please fill in all fields" })
  else if jsTruthy s.formData.id then
    createUpdateHandler usersBaseUrl "user" usersEmptyForm s s.formData resp
  else
    createCreateHandler usersBaseUrl usersEmptyForm s s.formData resp

/-- `handleSubmit` of the posts page: reject when `title` or `body` trims to
the empty string, otherwise dispatch on the truthiness of `formData.id` to
`handleUpdatePost` or `handleCreatePost` (the generic handlers instantiated
with the posts base URL, entity name `post` and the posts empty template). -/
def postsHandleSubmit (s : CrudState Post)
    (resp : Except String (HttpResponse Post)) :
    List Request × CrudState Post :=
  if jsTrim s.formData.title = "" ∨ jsTrim s.formData.body = "" then
    ([], { s with error := some "Please fill in all fields" })
  else if jsTruthy s.formData.id then
    createUpdateHandler postsBaseUrl "post" postsEmptyForm s s.formData resp
  else
    createCreateHandler postsBaseUrl postsEmptyForm s s.formData resp

/-! ### Helper lemmas about the id synthesis and list reconciliation -/

theorem le_mathMax (l : List Int) : ∀ x ∈ l, x ≤ mathMax l := by
  induction l with
  | nil => simp
  | cons a t ih =>
    cases t with
    | nil => simp [mathMax]
    | cons b t2 =>
      intro x hx
      simp only [mathMax]
      rcases List.mem_cons.mp hx with h | h
      · exact h ▸ le_max_left _ _
      · exact le_trans (ih x h) (le_max_right _ _)

theorem mathMax_mem (l : List Int) (h : l ≠ []) : mathMax l ∈ l := by
  induction l with
  | nil => exact absurd rfl h
  | cons a t ih =>
    cases t with
    | nil => simp [mathMax]
    | cons b t2 =>
      simp only [mathMax]
      rcases max_choice a (mathMax (b :: t2)) with hm | hm
      · rw [hm]; exact List.mem_cons_self _ _
      · rw [hm]; exact List.mem_cons_of_mem _ (ih (by simp))

/-- Every identifier present in the list is at most `jsMaxId` of the list. -/
theorem present_id_le_jsMaxId {T : Type} [Entity T] (items : List T)
    {item : T} (hm : item ∈ items) {m : Int} (hid : Entity.id item = some m) :
    m ≤ jsMaxId items := by
  have hlen : items.length > 0 := List.length_pos.mpr (List.ne_nil_of_mem hm)
  rw [jsMaxId, if_pos hlen]
  have : (Entity.id item).getD 0 ∈ items.map fun it => (Entity.id it).getD 0 :=
    List.mem_map_of_mem _ hm
  rw [hid] at this
  exact le_mathMax _ m this

/-- On a nonempty list, `jsMaxId` is attained by some element's `id || 0`. -/
theorem jsMaxId_attained {T : Type} [Entity T] (items : List T)
    (h : items ≠ []) :
    ∃ item ∈ items, (Entity.id item).getD 0 = jsMaxId items := by
  have hlen : items.length > 0 := List.length_pos.mpr h
  rw [jsMaxId, if_pos hlen]
  have hmem : mathMax (items.map fun it => (Entity.id it).getD 0) ∈
      items.map fun it => (Entity.id it).getD 0 :=
    mathMax_mem _ (by simp [h])
  rcases List.mem_map.mp hmem with ⟨item, hitem, heq⟩
  exact ⟨item, hitem, heq⟩

/-- The id synthesized by the create handler is strictly above every
identifier present in the list, so appending it cannot collide. -/
theorem synthesized_id_not_mem {T : Type} [Entity T] (items : List T)
    {item : T} (hm : item ∈ items) :
    Entity.id item ≠ some (jsMaxId items + 1) := by
  intro hEq
  have := present_id_le_jsMaxId items hm hEq
  omega

/-- If no element's id matches, the update handler's `map` is the identity. -/
theorem map_update_no_match {T : Type} [Entity T] (items : List T) (v : T)
    (oid : Option Int) (hno : ∀ item ∈ items, Entity.id item ≠ oid) :
    (items.map fun item => if Entity.id item = oid then v else item) = items := by
  have : ∀ item ∈ items,
      (if Entity.id item = oid then v else item) = item := by
    intro item hitem
    exact if_neg (hno item hitem)
  calc (items.map fun item => if Entity.id item = oid then v else item)
      = items.map (fun item => item) := List.map_congr_left this
    _ = items := List.map_id _

/-- Under distinct ids, the update handler's `map` replaces exactly the one
matching position: it equals `List.set` at that index. -/
theorem map_update_eq_set {T : Type} [Entity T] (items : List T) (n : Int)
    (v : T) (hnd : (items.map Entity.id).Nodup)
    (hmem : ∃ item ∈ items, Entity.id item = some n) :
    ∃ k, ∃ hk : k < items.length,
      Entity.id (items.get ⟨k, hk⟩) = some n ∧
      (items.map fun item => if Entity.id item = some n then v else item) =
        items.set k v := by
  induction items with
  | nil => rcases hmem with ⟨_, h, _⟩; exact absurd h (List.not_mem_nil _)
  | cons a t ih =>
    rw [List.map_cons, List.nodup_cons] at hnd
    by_cases ha : Entity.id a = some n
    · refine ⟨0, by simp, by simpa using ha, ?_⟩
      have hno : ∀ item ∈ t, Entity.id item ≠ some n := by
        intro item hitem hEq
        exact hnd.1 (ha ▸ hEq ▸ List.mem_map_of_mem _ hitem)
      simp only [List.map_cons, if_pos ha, List.set]
      rw [map_update_no_match t v (some n) hno]
    · have hmem' : ∃ item ∈ t, Entity.id item = some n := by
        rcases hmem with ⟨item, hitem, hid⟩
        rcases List.mem_cons.mp hitem with h | h
        · exact absurd (h ▸ hid) ha
        · exact ⟨item, h, hid⟩
      rcases ih hnd.2 hmem' with ⟨k, hk, hid, hset⟩
      refine ⟨k + 1, by simpa using hk, by simpa using hid, ?_⟩
      simp only [List.map_cons, if_neg ha, List.set]
      rw [hset]

/-- Under distinct ids, deleting an identifier that is present removes
exactly one element. -/
theorem filter_ne_length {T : Type} [Entity T] (items : List T) (n : Int)
    (hnd : (items.map Entity.id).Nodup)
    (hmem : ∃ item ∈ items, Entity.id item = some n) :
    (items.filter fun item => Entity.id item ≠ some n).length + 1 =
      items.length := by
  induction items with
  | nil => rcases hmem with ⟨_, h, _⟩; exact absurd h (List.not_mem_nil _)
  | cons a t ih =>
    rw [List.map_cons, List.nodup_cons] at hnd
    by_cases ha : Entity.id a = some n
    · have hall : ∀ item ∈ t, Entity.id item ≠ some n := by
        intro item hitem hEq
        exact hnd.1 (ha ▸ hEq ▸ List.mem_map_of_mem _ hitem)
      have : (t.filter fun item => Entity.id item ≠ some n) = t := by
        rw [List.filter_eq_self]
        intro item hitem
        simpa using hall item hitem
      rw [List.filter_cons, if_neg (by simp [ha]), this]
      simp
    · have hmem' : ∃ item ∈ t, Entity.id item = some n := by
        rcases hmem with ⟨item, hitem, hid⟩
        rcases List.mem_cons.mp hitem with h | h
        · exact absurd (h ▸ hid) ha
        · exact ⟨item, h, hid⟩
      have := ih hnd.2 hmem'
      simp only [List.filter_cons]
      rw [if_pos (by simpa using ha)]
      simpa using this

/-! ### Claim theorems -/

/-- C1: a successful create yields the old list with exactly one element
appended at the end; the appended element is the server's returned
representation with its identifier overwritten by one plus the maximum
identifier of the old list (1 when the list was empty, strictly above and
attained by the present identifiers otherwise); the form draft is reset to
the caller-supplied empty template. On [id 1, id 3], creating a third item
appends an element with id 4, giving length 3. -/
theorem create_success_appends_max_plus_one {T : Type} [Entity T]
    (baseUrl : String) (clearFormData : T) (s : CrudState T) (itemData : T)
    (r : HttpResponse T) (hok : r.ok = true)
    (hall : ∀ item ∈ s.items, (Entity.id item).isSome) :
    ((createCreateHandler baseUrl clearFormData s itemData (.ok r)).2.items
        = s.items ++ [Entity.withId r.body (jsMaxId s.items + 1)]
      ∧ (createCreateHandler baseUrl clearFormData s itemData (.ok r)).2.items.length
        = s.items.length + 1
      ∧ Entity.id (Entity.withId r.body (jsMaxId s.items + 1))
        = some (jsMaxId s.items + 1)
      ∧ (s.items = [] → jsMaxId s.items + 1 = 1)
      ∧ (∀ item ∈ s.items, ∀ m : Int, Entity.id item = some m →
          m < jsMaxId s.items + 1)
      ∧ (s.items ≠ [] → ∃ item ∈ s.items, Entity.id item = some (jsMaxId s.items))
      ∧ (createCreateHandler baseUrl clearFormData s itemData (.ok r)).2.formData
        = clearFormData)
    ∧ ((createCreateHandler usersBaseUrl usersEmptyForm
          ⟨[⟨some 1, "A", "a"⟩, ⟨some 3, "B", "b"⟩], false, none, usersEmptyForm⟩
          ⟨none, "C", "c"⟩ (.ok ⟨true, 201, ⟨none, "C", "c"⟩⟩)).2.items.map Entity.id
        = [some 1, some 3, some 4]
      ∧ (createCreateHandler usersBaseUrl usersEmptyForm
          ⟨[⟨some 1, "A", "a"⟩, ⟨some 3, "B", "b"⟩], false, none, usersEmptyForm⟩
          ⟨none, "C", "c"⟩ (.ok ⟨true, 201, ⟨none, "C", "c"⟩⟩)).2.items.length = 3) := by
  have hmain : (createCreateHandler baseUrl clearFormData s itemData (.ok r)).2
      = { s with error := none,
                 items := s.items ++ [Entity.withId r.body (jsMaxId s.items + 1)],
                 formData := clearFormData } := by
    obtain ⟨rok, rstatus, rbody⟩ := r
    cases hok
    rfl
  constructor
  · refine ⟨by rw [hmain], by rw [hmain]; simp, Entity.id_withId _ _, ?_, ?_, ?_,
      by rw [hmain]⟩
    · intro hnil; simp [jsMaxId, hnil]
    · intro item hm m hid
      have := present_id_le_jsMaxId s.items hm hid
      omega
    · intro hne
      rcases jsMaxId_attained s.items hne with ⟨item, hitem, heq⟩
      rcases Option.isSome_iff_exists.mp (hall item hitem) with ⟨m, hm⟩
      refine ⟨item, hitem, ?_⟩
      rw [hm] at heq ⊢
      simp only [Option.getD_some] at heq
      rw [heq]
  · constructor <;> decide

/-- C1 witness: the hypotheses of `create_success_appends_max_plus_one` hold
at the spec's scenario and the form is reset there. -/
theorem create_success_appends_max_plus_one_witness :
    ((⟨true, 201, ⟨none, "C", "c"⟩⟩ : HttpResponse User).ok = true
      ∧ ∀ item ∈ ([⟨some 1, "A", "a"⟩, ⟨some 3, "B", "b"⟩] : List User),
          (Entity.id item).isSome)
    ∧ (createCreateHandler usersBaseUrl usersEmptyForm
        ⟨[⟨some 1, "A", "a"⟩, ⟨some 3, "B", "b"⟩], false, none, usersEmptyForm⟩
        ⟨none, "C", "c"⟩ (.ok ⟨true, 201, ⟨none, "C", "c"⟩⟩)).2.formData
      = usersEmptyForm :=
  ⟨⟨rfl, by decide⟩,
   (create_success_appends_max_plus_one usersBaseUrl usersEmptyForm
      ⟨[⟨some 1, "A", "a"⟩, ⟨some 3, "B", "b"⟩], false, none, usersEmptyForm⟩
      ⟨none, "C", "c"⟩ ⟨true, 201, ⟨none, "C", "c"⟩⟩ rfl
      (by decide)).1.2.2.2.2.2.2⟩

/-- C3: an update whose item carries a missing or zero identifier fails
fast: no request is issued, the list and the form draft are unchanged, and
the local error `Cannot update ... without an ID` is recorded. -/
theorem update_without_id_fails_fast {T : Type} [Entity T]
    (baseUrl entityName : String) (clearFormData : T) (s : CrudState T)
    (itemData : T) (resp : Except String (HttpResponse T))
    (h : Entity.id itemData = none ∨ Entity.id itemData = some 0) :
    (createUpdateHandler baseUrl entityName clearFormData s itemData resp).1 = []
    ∧ (createUpdateHandler baseUrl entityName clearFormData s itemData resp).2.items
      = s.items
    ∧ (createUpdateHandler baseUrl entityName clearFormData s itemData resp).2.formData
      = s.formData
    ∧ (createUpdateHandler baseUrl entityName clearFormData s itemData resp).2.error
      = some ("Cannot update " ++ entityName ++ " without an ID") := by
  have hfalse : jsTruthy (Entity.id itemData) = false := by
    rcases h with h | h <;> simp [h, jsTruthy]
  simp [createUpdateHandler, hfalse]

/-- C3 witness: a form draft with no id is rejected locally. -/
theorem update_without_id_fails_fast_witness :
    ((Entity.id (⟨none, "C", "c"⟩ : User) = none
        ∨ Entity.id (⟨none, "C", "c"⟩ : User) = some 0)
      ∧ (createUpdateHandler usersBaseUrl "user" usersEmptyForm
          ⟨[⟨some 1, "A", "a"⟩], false, none, usersEmptyForm⟩
          ⟨none, "C", "c"⟩ (.ok ⟨true, 200, ⟨none, "C", "c"⟩⟩)).1 = [])
      ∧ (createUpdateHandler usersBaseUrl "user" usersEmptyForm
          ⟨[⟨some 1, "A", "a"⟩], false, none, usersEmptyForm⟩
          ⟨none, "C", "c"⟩ (.ok ⟨true, 200, ⟨none, "C", "c"⟩⟩)).2.items
        = [⟨some 1, "A", "a"⟩] :=
  have h := update_without_id_fails_fast usersBaseUrl "user" usersEmptyForm
    ⟨[⟨some 1, "A", "a"⟩], false, none, usersEmptyForm⟩
    ⟨none, "C", "c"⟩ (.ok ⟨true, 200, ⟨none, "C", "c"⟩⟩) (Or.inl rfl)
  ⟨⟨Or.inl rfl, h.1⟩, h.2.1⟩

/-- C6: a successful fetch replaces the local list wholesale with the parsed
response body, whatever the previous contents were. -/
theorem fetch_success_replaces_list {T : Type} (baseUrl : String)
    (s : CrudState T) (r : HttpResponse (List T)) (hok : r.ok = true) :
    (createFetchHandler baseUrl s (.ok r)).2.2.items = r.body := by
  obtain ⟨rok, rstatus, rbody⟩ := r
  cases hok
  rfl

/-- C6 witness: fetching over a non-empty previous list installs exactly the
response body. -/
theorem fetch_success_replaces_list_witness :
    ((⟨true, 200, [⟨some 7, "Z", "z"⟩]⟩ : HttpResponse (List User)).ok = true)
    ∧ (createFetchHandler usersBaseUrl
        ⟨[⟨some 1, "A", "a"⟩, ⟨some 3, "B", "b"⟩], false, none, usersEmptyForm⟩
        (.ok ⟨true, 200, [⟨some 7, "Z", "z"⟩]⟩)).2.2.items
      = [⟨some 7, "Z", "z"⟩] :=
  ⟨rfl,
   fetch_success_replaces_list usersBaseUrl
    ⟨[⟨some 1, "A", "a"⟩, ⟨some 3, "B", "b"⟩], false, none, usersEmptyForm⟩
    ⟨true, 200, [⟨some 7, "Z", "z"⟩]⟩ rfl⟩

/-- C7: the fetch handler sets the loading flag while the request is in
flight and clears it afterwards regardless of outcome; on any failure
(rejected request or non-success status such as 500) the list is left
exactly as it was and the failure's message is recorded. -/
theorem fetch_failure_preserves_list_and_toggles_loading {T : Type}
    (baseUrl : String) (s : CrudState T)
    (resp : Except String (HttpResponse (List T))) :
    (createFetchHandler baseUrl s resp).2.1.loading = true
    ∧ (createFetchHandler baseUrl s resp).2.2.loading = false
    ∧ (∀ msg, httpResult resp = .error msg →
        (createFetchHandler baseUrl s resp).2.2.items = s.items
        ∧ (createFetchHandler baseUrl s resp).2.2.error = some msg)
    ∧ (∀ r : HttpResponse (List T), resp = .ok r → r.ok = false →
        (createFetchHandler baseUrl s resp).2.2.error
          = some ("HTTP error! status: " ++ toString r.status)) := by
  refine ⟨rfl, ?_, ?_, ?_⟩
  · cases h : httpResult resp <;> simp [createFetchHandler, h]
  · intro msg hmsg
    constructor <;> simp [createFetchHandler, hmsg]
  · intro r hr hnotok
    subst hr
    have h : httpResult (Except.ok r)
        = Except.error ("HTTP error! status: " ++ toString r.status) := by
      simp [httpResult, hnotok]
    simp [createFetchHandler, h]

/-- C7 witness: an HTTP 500 on fetch keeps the previous list, records
`HTTP error! status: 500`, and the loading flag ends false. -/
theorem fetch_failure_witness :
    (httpResult (Except.ok (⟨false, 500, []⟩ : HttpResponse (List User)))
      = Except.error "HTTP error! status: 500")
    ∧ (createFetchHandler usersBaseUrl
        ⟨[⟨some 1, "A", "a"⟩], false, none, usersEmptyForm⟩
        (.ok ⟨false, 500, []⟩)).2.2.items = [⟨some 1, "A", "a"⟩]
    ∧ (createFetchHandler usersBaseUrl
        ⟨[⟨some 1, "A", "a"⟩], false, none, usersEmptyForm⟩
        (.ok ⟨false, 500, []⟩)).2.2.error = some "HTTP error! status: 500"
    ∧ (createFetchHandler usersBaseUrl
        ⟨[⟨some 1, "A", "a"⟩], false, none, usersEmptyForm⟩
        (.ok ⟨false, 500, []⟩)).2.1.loading = true
    ∧ (createFetchHandler usersBaseUrl
        ⟨[⟨some 1, "A", "a"⟩], false, none, usersEmptyForm⟩
        (.ok ⟨false, 500, []⟩)).2.2.loading = false :=
  have h := fetch_failure_preserves_list_and_toggles_loading usersBaseUrl
    ⟨[⟨some 1, "A", "a"⟩], false, none, usersEmptyForm⟩
    (.ok (⟨false, 500, []⟩ : HttpResponse (List User)))
  have hmsg : httpResult (Except.ok (⟨false, 500, []⟩ : HttpResponse (List User)))
      = Except.error "HTTP error! status: 500" := rfl
  ⟨hmsg, (h.2.2.1 _ hmsg).1, (h.2.2.1 _ hmsg).2, h.1, h.2.1⟩

/-- C4: a successful update whose submitted identifier matches an element
of a duplicate-free list replaces exactly that element by the server's
returned representation, keeps every other element unchanged in its
position, keeps the length, and clears the form. The spec's scenario:
updating id 3 to name B2 on [id 1 A, id 3 B] leaves id 1 untouched. -/
theorem update_success_replaces_exactly_one {T : Type} [Entity T]
    (baseUrl entityName : String) (clearFormData : T) (s : CrudState T)
    (itemData : T) (r : HttpResponse T) (n : Int)
    (hok : r.ok = true) (hid : Entity.id itemData = some n) (hn : n ≠ 0)
    (hnd : (s.items.map Entity.id).Nodup)
    (hmem : ∃ item ∈ s.items, Entity.id item = some n) :
    ((∃ k, ∃ hk : k < s.items.length,
        Entity.id (s.items.get ⟨k, hk⟩) = some n
        ∧ (createUpdateHandler baseUrl entityName clearFormData s itemData
            (.ok r)).2.items = s.items.set k r.body
        ∧ ∀ j, j ≠ k →
            (createUpdateHandler baseUrl entityName clearFormData s itemData
              (.ok r)).2.items.get? j = s.items.get? j)
      ∧ (createUpdateHandler baseUrl entityName clearFormData s itemData
          (.ok r)).2.items.length = s.items.length
      ∧ (createUpdateHandler baseUrl entityName clearFormData s itemData
          (.ok r)).2.formData = clearFormData)
    ∧ (createUpdateHandler usersBaseUrl "user" usersEmptyForm
        ⟨[⟨some 1, "A", "a"⟩, ⟨some 3, "B", "b"⟩], false, none, usersEmptyForm⟩
        ⟨some 3, "B2", "b"⟩ (.ok ⟨true, 200, ⟨some 3, "B2", "b"⟩⟩)).2.items
      = [⟨some 1, "A", "a"⟩, ⟨some 3, "B2", "b"⟩] := by
  have htruthy : jsTruthy (Entity.id itemData) = true := by
    simp [jsTruthy, hid, hn]
  have hmain : (createUpdateHandler baseUrl entityName clearFormData s itemData
      (.ok r)).2
      = { s with error := none,
                 items := s.items.map fun item =>
                   if Entity.id item = Entity.id itemData then r.body else item,
                 formData := clearFormData } := by
    obtain ⟨rok, rstatus, rbody⟩ := r
    cases hok
    simp only [createUpdateHandler, htruthy, if_true, httpResult]
  constructor
  · rcases map_update_eq_set s.items n r.body hnd hmem with ⟨k, hk, hidk, hset⟩
    rw [hid] at hmain
    refine ⟨⟨k, hk, hidk, by rw [hmain]; exact hset, ?_⟩,
      by rw [hmain]; simp, by rw [hmain]⟩
    intro j hj
    rw [hmain]
    simp only []
    rw [hset]
    exact List.get?_set_ne _ _ (fun hEq => hj hEq.symm)
  · decide

/-- C4 witness: the hypotheses hold at the spec's scenario and exactly the
second element (index 1) is replaced there. -/
theorem update_success_replaces_exactly_one_witness :
    ((⟨true, 200, ⟨some 3, "B2", "b"⟩⟩ : HttpResponse User).ok = true
      ∧ Entity.id (⟨some 3, "B2", "b"⟩ : User) = some 3
      ∧ (3 : Int) ≠ 0
      ∧ (([⟨some 1, "A", "a"⟩, ⟨some 3, "B", "b"⟩] : List User).map Entity.id).Nodup
      ∧ ∃ item ∈ ([⟨some 1, "A", "a"⟩, ⟨some 3, "B", "b"⟩] : List User),
          Entity.id item = some 3)
    ∧ (createUpdateHandler usersBaseUrl "user" usersEmptyForm
        ⟨[⟨some 1, "A", "a"⟩, ⟨some 3, "B", "b"⟩], false, none, usersEmptyForm⟩
        ⟨some 3, "B2", "b"⟩ (.ok ⟨true, 200, ⟨some 3, "B2", "b"⟩⟩)).2.items
      = [⟨some 1, "A", "a"⟩, ⟨some 3, "B2", "b"⟩] :=
  ⟨⟨rfl, rfl, by decide, by decide, ⟨⟨some 3, "B", "b"⟩, by decide, rfl⟩⟩,
   (update_success_replaces_exactly_one usersBaseUrl "user" usersEmptyForm
      ⟨[⟨some 1, "A", "a"⟩, ⟨some 3, "B", "b"⟩], false, none, usersEmptyForm⟩
      ⟨some 3, "B2", "b"⟩ ⟨true, 200, ⟨some 3, "B2", "b"⟩⟩ 3 rfl rfl
      (by decide) (by decide)
      ⟨⟨some 3, "B", "b"⟩, by decide, rfl⟩).2⟩

/-- C5: after a successful delete of identifier `tid` from a duplicate-free
list, no element carries `tid`; the length drops by exactly one when an
element carried it and is unchanged otherwise; every element with another
identifier survives. The spec's scenario: delete 1 from [id 1, id 3] leaves
[id 3]. -/
theorem delete_success_removes_id {T : Type} [Entity T] (baseUrl : String)
    (s : CrudState T) (tid : Int) (r : HttpResponse Unit)
    (hok : r.ok = true) (hnd : (s.items.map Entity.id).Nodup) :
    ((∀ item ∈ (createDeleteHandler baseUrl s tid (.ok r)).2.items,
        Entity.id item ≠ some tid)
      ∧ ((∃ item ∈ s.items, Entity.id item = some tid) →
          (createDeleteHandler baseUrl s tid (.ok r)).2.items.length + 1
            = s.items.length)
      ∧ ((∀ item ∈ s.items, Entity.id item ≠ some tid) →
          (createDeleteHandler baseUrl s tid (.ok r)).2.items = s.items)
      ∧ (∀ item ∈ s.items, Entity.id item ≠ some tid →
          item ∈ (createDeleteHandler baseUrl s tid (.ok r)).2.items))
    ∧ (createDeleteHandler usersBaseUrl
        ⟨[⟨some 1, "A", "a"⟩, ⟨some 3, "B", "b"⟩], false, none, usersEmptyForm⟩
        1 (.ok ⟨true, 200, ()⟩)).2.items = [⟨some 3, "B", "b"⟩] := by
  have hmain : (createDeleteHandler baseUrl s tid (.ok r)).2.items
      = s.items.filter fun item => Entity.id item ≠ some tid := by
    obtain ⟨rok, rstatus, rbody⟩ := r
    cases hok
    rfl
  constructor
  · refine ⟨?_, ?_, ?_, ?_⟩
    · intro item hitem
      rw [hmain] at hitem
      have := List.of_mem_filter hitem
      simpa using this
    · intro hmem
      rw [hmain]
      exact filter_ne_length s.items tid hnd hmem
    · intro hall
      rw [hmain, List.filter_eq_self]
      intro item hitem
      simpa using hall item hitem
    · intro item hitem hne
      rw [hmain]
      exact List.mem_filter_of_mem hitem (by simpa using hne)
  · decide

/-- C5 witness: the hypotheses hold at the spec's scenario; deleting id 1
from [id 1, id 3] leaves a list of length 1 whose only element is id 3. -/
theorem delete_success_removes_id_witness :
    ((⟨true, 200, ()⟩ : HttpResponse Unit).ok = true
      ∧ (([⟨some 1, "A", "a"⟩, ⟨some 3, "B", "b"⟩] : List User).map Entity.id).Nodup
      ∧ ∃ item ∈ ([⟨some 1, "A", "a"⟩, ⟨some 3, "B", "b"⟩] : List User),
          Entity.id item = some 1)
    ∧ (createDeleteHandler usersBaseUrl
        ⟨[⟨some 1, "A", "a"⟩, ⟨some 3, "B", "b"⟩], false, none, usersEmptyForm⟩
        1 (.ok ⟨true, 200, ()⟩)).2.items.length + 1 = 2 :=
  ⟨⟨rfl, by decide, ⟨⟨some 1, "A", "a"⟩, by decide, rfl⟩⟩,
   (delete_success_removes_id usersBaseUrl
      ⟨[⟨some 1, "A", "a"⟩, ⟨some 3, "B", "b"⟩], false, none, usersEmptyForm⟩
      1 ⟨true, 200, ()⟩ rfl (by decide)).1.2.1
      ⟨⟨some 1, "A", "a"⟩, by decide, rfl⟩⟩

/-- C9: a successful update whose non-zero identifier matches no element
leaves the list entirely unchanged, clears the form draft to the empty
template, and records no error. -/
theorem update_unmatched_id_leaves_list {T : Type} [Entity T]
    (baseUrl entityName : String) (clearFormData : T) (s : CrudState T)
    (itemData : T) (r : HttpResponse T) (n : Int)
    (hok : r.ok = true) (hid : Entity.id itemData = some n) (hn : n ≠ 0)
    (hno : ∀ item ∈ s.items, Entity.id item ≠ some n) :
    (createUpdateHandler baseUrl entityName clearFormData s itemData
        (.ok r)).2.items = s.items
    ∧ (createUpdateHandler baseUrl entityName clearFormData s itemData
        (.ok r)).2.formData = clearFormData
    ∧ (createUpdateHandler baseUrl entityName clearFormData s itemData
        (.ok r)).2.error = none := by
  have htruthy : jsTruthy (Entity.id itemData) = true := by
    simp [jsTruthy, hid, hn]
  have hmain : (createUpdateHandler baseUrl entityName clearFormData s itemData
      (.ok r)).2
      = { s with error := none,
                 items := s.items.map fun item =>
                   if Entity.id item = Entity.id itemData then r.body else item,
                 formData := clearFormData } := by
    obtain ⟨rok, rstatus, rbody⟩ := r
    cases hok
    simp only [createUpdateHandler, htruthy, if_true, httpResult]
  rw [hmain]
  refine ⟨?_, rfl, rfl⟩
  rw [hid]
  exact map_update_no_match s.items r.body (some n) hno

/-- C9 witness: updating id 9 over a list holding only ids 1 and 3 leaves
the list as it was and clears the form without error. -/
theorem update_unmatched_id_leaves_list_witness :
    ((⟨true, 200, ⟨some 9, "X", "x"⟩⟩ : HttpResponse User).ok = true
      ∧ Entity.id (⟨some 9, "X", "x"⟩ : User) = some 9
      ∧ (9 : Int) ≠ 0
      ∧ ∀ item ∈ ([⟨some 1, "A", "a"⟩, ⟨some 3, "B", "b"⟩] : List User),
          Entity.id item ≠ some 9)
    ∧ (createUpdateHandler usersBaseUrl "user" usersEmptyForm
        ⟨[⟨some 1, "A", "a"⟩, ⟨some 3, "B", "b"⟩], false, none, usersEmptyForm⟩
        ⟨some 9, "X", "x"⟩ (.ok ⟨true, 200, ⟨some 9, "X", "x"⟩⟩)).2.items
      = [⟨some 1, "A", "a"⟩, ⟨some 3, "B", "b"⟩]
    ∧ (createUpdateHandler usersBaseUrl "user" usersEmptyForm
        ⟨[⟨some 1, "A", "a"⟩, ⟨some 3, "B", "b"⟩], false, none, usersEmptyForm⟩
        ⟨some 9, "X", "x"⟩ (.ok ⟨true, 200, ⟨some 9, "X", "x"⟩⟩)).2.error = none :=
  have h := update_unmatched_id_leaves_list usersBaseUrl "user" usersEmptyForm
    ⟨[⟨some 1, "A", "a"⟩, ⟨some 3, "B", "b"⟩], false, none, usersEmptyForm⟩
    ⟨some 9, "X", "x"⟩ ⟨true, 200, ⟨some 9, "X", "x"⟩⟩ 9 rfl rfl
    (by decide) (by decide)
  ⟨⟨rfl, rfl, by decide, by decide⟩, h.1, h.2.2⟩

/-- C8: submitting with a required text field that trims to the empty string
(name or email for users, title or body for posts) is rejected locally:
`Please fill in all fields` is recorded, no request is issued, and the
resulting state differs from the old one in the error message alone, so the
list and the form draft are untouched. -/
theorem submit_blank_required_field_rejected :
    (∀ (s : CrudState User) (resp : Except String (HttpResponse User)),
      (jsTrim s.formData.name = "" ∨ jsTrim s.formData.email = "") →
        usersHandleSubmit s resp
          = ([], { s with error := some "Please fill in all fields" }))
    ∧ (∀ (s : CrudState Post) (resp : Except String (HttpResponse Post)),
      (jsTrim s.formData.title = "" ∨ jsTrim s.formData.body = "") →
        postsHandleSubmit s resp
          = ([], { s with error := some "Please fill in all fields" })) := by
  constructor
  · intro s resp h
    rw [usersHandleSubmit, if_pos h]
  · intro s resp h
    rw [postsHandleSubmit, if_pos h]

/-- C8 witness: a whitespace-only name is rejected with no request, and the
list and form draft survive unchanged. -/
theorem submit_blank_required_field_rejected_witness :
    (jsTrim (CrudState.mk [⟨some 1, "A", "a"⟩] false none
          (⟨none, "  ", "c"⟩ : User)).formData.name = ""
      ∨ jsTrim (CrudState.mk ([⟨some 1, "A", "a"⟩] : List User) false none
          ⟨none, "  ", "c"⟩).formData.email = "")
    ∧ usersHandleSubmit
        ⟨[⟨some 1, "A", "a"⟩], false, none, ⟨none, "  ", "c"⟩⟩
        (.ok ⟨true, 201, ⟨none, "C", "c"⟩⟩)
      = ([], CrudState.mk [⟨some 1, "A", "a"⟩] false
          (some "Please fill in all fields") (⟨none, "  ", "c"⟩ : User)) :=
  ⟨Or.inl (by decide),
   submit_blank_required_field_rejected.1
    ⟨[⟨some 1, "A", "a"⟩], false, none, ⟨none, "  ", "c"⟩⟩
    (.ok ⟨true, 201, ⟨none, "C", "c"⟩⟩) (Or.inl (by decide))⟩

/-- C2 counterexample: on the duplicate-free list [id 1, id 2], a successful
update of id 1 whose server response carries id 2 produces a list whose
identifiers are no longer pairwise distinct ([2, 2]), because the code
splices the server's returned representation in verbatim. -/
theorem update_can_break_id_uniqueness :
    (([⟨some 1, "A", "a"⟩, ⟨some 2, "B", "b"⟩] : List User).map Entity.id).Nodup
    ∧ ((⟨true, 200, ⟨some 2, "A2", "a"⟩⟩ : HttpResponse User).ok = true)
    ∧ ¬ (((createUpdateHandler usersBaseUrl "user" usersEmptyForm
          ⟨[⟨some 1, "A", "a"⟩, ⟨some 2, "B", "b"⟩], false, none, usersEmptyForm⟩
          ⟨some 1, "A2", "a"⟩
          (.ok ⟨true, 200, ⟨some 2, "A2", "a"⟩⟩)).2.items.map Entity.id).Nodup) := by
  refine ⟨by decide, rfl, by decide⟩

/-- C2 (amended): identifiers stay pairwise distinct under create and delete
unconditionally, under a successful fetch whose response body already has
pairwise distinct identifiers, and under a successful update whose server
response carries the submitted identifier. -/
theorem crud_operations_preserve_id_uniqueness {T : Type} [Entity T] :
    (∀ (baseUrl : String) (clearFormData : T) (s : CrudState T) (itemData : T)
        (r : HttpResponse T), r.ok = true →
      (s.items.map Entity.id).Nodup →
      (((createCreateHandler baseUrl clearFormData s itemData
          (.ok r)).2.items.map Entity.id).Nodup))
    ∧ (∀ (baseUrl : String) (s : CrudState T) (tid : Int)
        (r : HttpResponse Unit), r.ok = true →
      (s.items.map Entity.id).Nodup →
      (((createDeleteHandler baseUrl s tid (.ok r)).2.items.map Entity.id).Nodup))
    ∧ (∀ (baseUrl : String) (s : CrudState T) (r : HttpResponse (List T)),
      r.ok = true → (r.body.map Entity.id).Nodup →
      (((createFetchHandler baseUrl s (.ok r)).2.2.items.map Entity.id).Nodup))
    ∧ (∀ (baseUrl entityName : String) (clearFormData : T) (s : CrudState T)
        (itemData : T) (r : HttpResponse T) (n : Int),
      r.ok = true → Entity.id itemData = some n → n ≠ 0 →
      Entity.id r.body = Entity.id itemData →
      (s.items.map Entity.id).Nodup →
      (((createUpdateHandler baseUrl entityName clearFormData s itemData
          (.ok r)).2.items.map Entity.id).Nodup)) := by
  refine ⟨?_, ?_, ?_, ?_⟩
  · intro baseUrl clearFormData s itemData r hok hnd
    have hmain : (createCreateHandler baseUrl clearFormData s itemData (.ok r)).2.items
        = s.items ++ [Entity.withId r.body (jsMaxId s.items + 1)] := by
      obtain ⟨rok, rstatus, rbody⟩ := r
      cases hok
      rfl
    rw [hmain, List.map_append, List.nodup_append]
    refine ⟨hnd, by simp, ?_⟩
    intro x hx
    rcases List.mem_map.mp hx with ⟨item, hitem, hxid⟩
    simp only [List.map_cons, List.map_nil, List.mem_cons, List.not_mem_nil, or_false]
    intro hEq
    exact synthesized_id_not_mem s.items hitem
      (by rw [hxid, hEq, Entity.id_withId])
  · intro baseUrl s tid r hok hnd
    have hmain : (createDeleteHandler baseUrl s tid (.ok r)).2.items
        = s.items.filter fun item => Entity.id item ≠ some tid := by
      obtain ⟨rok, rstatus, rbody⟩ := r
      cases hok
      rfl
    rw [hmain]
    exact List.Nodup.sublist (List.Sublist.map _ (List.filter_sublist _)) hnd
  · intro baseUrl s r hok hnd
    have hmain : (createFetchHandler baseUrl s (.ok r)).2.2.items = r.body := by
      obtain ⟨rok, rstatus, rbody⟩ := r
      cases hok
      rfl
    rw [hmain]
    exact hnd
  · intro baseUrl entityName clearFormData s itemData r n hok hid hn hrid hnd
    have htruthy : jsTruthy (Entity.id itemData) = true := by
      simp [jsTruthy, hid, hn]
    have hmain : (createUpdateHandler baseUrl entityName clearFormData s itemData
        (.ok r)).2.items
        = s.items.map fun item =>
            if Entity.id item = Entity.id itemData then r.body else item := by
      obtain ⟨rok, rstatus, rbody⟩ := r
      cases hok
      simp only [createUpdateHandler, htruthy, if_true, httpResult]
    have hids : ((s.items.map fun item =>
        if Entity.id item = Entity.id itemData then r.body else item).map Entity.id)
        = s.items.map Entity.id := by
      rw [List.map_map]
      apply List.map_congr_left
      intro item hitem
      by_cases hc : Entity.id item = Entity.id itemData
      · simp [Function.comp, hc, hrid]
      · simp [Function.comp, hc]
    rw [hmain, hids]
    exact hnd

/-- C2 witness: on [id 1, id 2], a successful update of id 1 whose server
response echoes id 1 keeps the identifiers pairwise distinct. -/
theorem crud_operations_preserve_id_uniqueness_witness :
    (([⟨some 1, "A", "a"⟩, ⟨some 2, "B", "b"⟩] : List User).map Entity.id).Nodup
    ∧ (((createUpdateHandler usersBaseUrl "user" usersEmptyForm
        ⟨[⟨some 1, "A", "a"⟩, ⟨some 2, "B", "b"⟩], false, none, usersEmptyForm⟩
        ⟨some 1, "A2", "a"⟩
        (.ok ⟨true, 200, ⟨some 1, "A2", "a"⟩⟩)).2.items.map Entity.id).Nodup) :=
  ⟨by decide,
   (@crud_operations_preserve_id_uniqueness User _).2.2.2 usersBaseUrl "user"
    usersEmptyForm
    ⟨[⟨some 1, "A", "a"⟩, ⟨some 2, "B", "b"⟩], false, none, usersEmptyForm⟩
    ⟨some 1, "A2", "a"⟩ ⟨true, 200, ⟨some 1, "A2", "a"⟩⟩ 1 rfl rfl
    (by decide) rfl (by decide)⟩

/-- C10 counterexample: the synthesized identifier is not always at least 1.
On the list holding the single identifier -5 (identifiers are plain JS
numbers and `-5 || 0` keeps -5), a successful create synthesizes -4. -/
theorem create_synthesized_id_below_one :
    ((createCreateHandler usersBaseUrl usersEmptyForm
        ⟨[⟨some (-5), "A", "a"⟩], false, none, usersEmptyForm⟩
        ⟨none, "C", "c"⟩ (.ok ⟨true, 201, ⟨none, "C", "c"⟩⟩)).2.items.map Entity.id
      = [some (-5), some (-4)])
    ∧ ¬ (1 ≤ (-4 : Int)) := by
  constructor <;> decide

/-- C10 (amended): after the local validation passes, the submit handlers of
both pages dispatch on the truthiness of the form draft's id — a missing or
zero id invokes the create operation and a non-zero id invokes the update
operation; an id is falsy exactly when it is missing or zero; and the
create handler's max computation treats a missing identifier as 0, so the
synthesized identifier `jsMaxId + 1` is at least 1 whenever no stored
identifier is negative. -/
theorem submit_dispatch_and_min_synthesized_id {T : Type} [Entity T] :
    (∀ (s : CrudState User) (resp : Except String (HttpResponse User)),
      jsTrim s.formData.name ≠ "" → jsTrim s.formData.email ≠ "" →
      (jsTruthy s.formData.id = false →
        usersHandleSubmit s resp
          = createCreateHandler usersBaseUrl usersEmptyForm s s.formData resp)
      ∧ (jsTruthy s.formData.id = true →
        usersHandleSubmit s resp
          = createUpdateHandler usersBaseUrl "user" usersEmptyForm s s.formData resp))
    ∧ (∀ (s : CrudState Post) (resp : Except String (HttpResponse Post)),
      jsTrim s.formData.title ≠ "" → jsTrim s.formData.body ≠ "" →
      (jsTruthy s.formData.id = false →
        postsHandleSubmit s resp
          = createCreateHandler postsBaseUrl postsEmptyForm s s.formData resp)
      ∧ (jsTruthy s.formData.id = true →
        postsHandleSubmit s resp
          = createUpdateHandler postsBaseUrl "post" postsEmptyForm s s.formData resp))
    ∧ (∀ oid : Option Int, jsTruthy oid = false ↔ oid = none ∨ oid = some 0)
    ∧ (∀ items : List T,
        (∀ item ∈ items, ∀ m : Int, Entity.id item = some m → 0 ≤ m) →
        1 ≤ jsMaxId items + 1) := by
  refine ⟨?_, ?_, ?_, ?_⟩
  · intro s resp hname hemail
    have hval : ¬ (jsTrim s.formData.name = "" ∨ jsTrim s.formData.email = "") := by
      rintro (h | h)
      · exact hname h
      · exact hemail h
    constructor
    · intro hfalsy
      rw [usersHandleSubmit, if_neg hval, if_neg (by simp [hfalsy])]
    · intro htruthy
      rw [usersHandleSubmit, if_neg hval, if_pos (by simp [htruthy])]
  · intro s resp htitle hbody
    have hval : ¬ (jsTrim s.formData.title = "" ∨ jsTrim s.formData.body = "") := by
      rintro (h | h)
      · exact htitle h
      · exact hbody h
    constructor
    · intro hfalsy
      rw [postsHandleSubmit, if_neg hval, if_neg (by simp [hfalsy])]
    · intro htruthy
      rw [postsHandleSubmit, if_neg hval, if_pos (by simp [htruthy])]
  · intro oid
    cases oid with
    | none => simp [jsTruthy]
    | some n =>
      constructor
      · intro h
        simp only [jsTruthy, bne_eq_false_iff_eq] at h
        exact Or.inr (by rw [h])
      · rintro (h | h)
        · exact absurd h (by simp)
        · simp only [Option.some.injEq] at h
          simp [jsTruthy, h]
  · intro items hnn
    rcases List.eq_nil_or_concat items with hnil | ⟨_, _, hcons⟩
    · simp [jsMaxId, hnil]
    · have hne : items ≠ [] := by rw [hcons]; simp
      rcases jsMaxId_attained items hne with ⟨item, hitem, heq⟩
      have h0 : 0 ≤ (Entity.id item).getD 0 := by
        cases hcase : Entity.id item with
        | none => simp
        | some m => simpa using hnn item hitem m hcase
      omega

/-- C10 witness: on a drafted user with no id and filled fields, submit
takes the create path, and on a list of nonnegative identifiers the
synthesized identifier is at least 1. -/
theorem submit_dispatch_and_min_synthesized_id_witness :
    (jsTrim (CrudState.mk ([] : List User) false none
        ⟨none, "C", "c"⟩).formData.name ≠ ""
      ∧ jsTrim (CrudState.mk ([] : List User) false none
          ⟨none, "C", "c"⟩).formData.email ≠ ""
      ∧ jsTruthy (⟨none, "C", "c"⟩ : User).id = false
      ∧ (∀ item ∈ ([⟨some 1, "A", "a"⟩] : List User), ∀ m : Int,
          Entity.id item = some m → 0 ≤ m))
    ∧ usersHandleSubmit ⟨[], false, none, ⟨none, "C", "c"⟩⟩
        (.ok ⟨true, 201, ⟨none, "C", "c"⟩⟩)
      = createCreateHandler usersBaseUrl usersEmptyForm
          ⟨[], false, none, ⟨none, "C", "c"⟩⟩ ⟨none, "C", "c"⟩
          (.ok ⟨true, 201, ⟨none, "C", "c"⟩⟩)
    ∧ 1 ≤ jsMaxId ([⟨some 1, "A", "a"⟩] : List User) + 1 :=
  ⟨⟨by decide, by decide, rfl, by decide⟩,
   ((@submit_dispatch_and_min_synthesized_id User _).1
      ⟨[], false, none, ⟨none, "C", "c"⟩⟩
      (.ok ⟨true, 201, ⟨none, "C", "c"⟩⟩) (by decide) (by decide)).1 rfl,
   (@submit_dispatch_and_min_synthesized_id User _).2.2.2
      [⟨some 1, "A", "a"⟩] (by decide)⟩
